import Mathlib

/-!
Verification of the rate-limit annotation subsystem of the haproxytech
kubernetes-ingress fork (pkg/annotations/ingress/reqRateLimit.go and the
rate-limit condition renderer of pkg/haproxy/rules).

The Go source is embedded shallowly: the annotation processor `Process`
becomes a pure state-transformer over an explicit `ProcState`; the Map Store
capability (exists / append / path) becomes an association list together with
an operation trace; machine integers become `Int` with explicit wrapping where
Go's int64 arithmetic can overflow.  External collaborators that are not part
of the excerpt (the Go standard library parsers, the repository's
size/time/hash utilities, the map-file storage engine, the condition renderer)
are modelled from their documented behaviour, as noted on each definition.
-/

/-! ## Character-list utilities (models of Go `strings` primitives) -/

/-- Model of Go `unicode.IsSpace` restricted to the ASCII space characters
(space, \t, \n, \v, \f, \r), which is what `strings.TrimSpace` trims for
ASCII input. -/
def isSpaceGo (c : Char) : Bool :=
  c = ' ' || c = '\t' || c = '\n' || c = Char.ofNat 11 || c = Char.ofNat 12 || c = '\r'

/-- Trim `isSpaceGo` characters from both ends: model of Go
`strings.TrimSpace`. -/
def trimChars (cs : List Char) : List Char :=
  ((cs.dropWhile isSpaceGo).reverse.dropWhile isSpaceGo).reverse

/-- `strings.TrimSpace` on strings. -/
def trimS (s : String) : String := String.mk (trimChars s.data)

/-- Split a character list at every occurrence of `sep`: model of Go
`strings.Split` with a one-character separator (always returns at least one
chunk; an empty input yields one empty chunk). -/
def splitOnCharL (sep : Char) : List Char → List (List Char)
  | [] => [[]]
  | c :: rest =>
    let r := splitOnCharL sep rest
    if c = sep then [] :: r
    else match r with
      | g :: gs => (c :: g) :: gs
      | [] => [[c]]

/-- `strings.Split(s, ",")`. -/
def splitComma (s : String) : List String :=
  (splitOnCharL ',' s.data).map String.mk

/-- `hasPre p cs` holds when `p` is an initial segment of `cs`: model of Go
`strings.HasPrefix`. -/
def hasPre : List Char → List Char → Bool
  | [], _ => true
  | _ :: _, [] => false
  | p :: ps, c :: cs => p = c && hasPre ps cs

/-- Model of Go `strings.HasSuffix`. -/
def hasSuf (suf cs : List Char) : Bool :=
  hasPre suf.reverse cs.reverse

def isDigitCh (c : Char) : Bool := '0' ≤ c && c ≤ '9'

def isHexDigitCh (c : Char) : Bool :=
  isDigitCh c || ('a' ≤ c && c ≤ 'f') || ('A' ≤ c && c ≤ 'F')

def natOfDigitsAux (acc : Nat) : List Char → Nat
  | [] => acc
  | c :: cs => natOfDigitsAux (acc * 10 + (c.toNat - 48)) cs

/-- Numeric value of a string of decimal digits. -/
def natOfDigits (cs : List Char) : Nat := natOfDigitsAux 0 cs

/-- Decimal rendering of an `Int`: model of Go `fmt.Sprintf("%d", v)` for an
`int64` argument. -/
def intDec (i : Int) : String :=
  if i < 0 then "-" ++ Nat.repr i.natAbs else Nat.repr i.natAbs

/-- Wrap an unbounded integer into the two's-complement `int64` range:
models Go's silent `int64` overflow. -/
def wrap64 (v : Int) : Int := (v + 2 ^ 63) % 2 ^ 64 - 2 ^ 63

/-! ## Model of Go `strconv.ParseInt(s, 10, 64)`

Go returns a value *together with* any error: `0` for a syntax error, the
clamped `int64` extreme for a range error.  The callers in the excerpt use the
returned value even on the error path, so the model keeps both components. -/

inductive NumErr
  | badSyn
  | outOfRange
deriving DecidableEq, Repr

/-- Digits-with-sign part of `strconv.ParseInt` for base 10 / bitSize 64:
parse an unsigned decimal and apply the sign, clamping to the `int64` range
with an `outOfRange` error exactly as Go does. -/
def parseUnsignedClamp (digits : List Char) (neg : Bool) : Int × Option NumErr :=
  if digits = [] ∨ ¬ digits.all isDigitCh then (0, some .badSyn)
  else if neg then
    if natOfDigits digits ≤ 2 ^ 63 then (-(natOfDigits digits : Int), none)
    else (-(2 ^ 63), some .outOfRange)
  else
    if natOfDigits digits < 2 ^ 63 then ((natOfDigits digits : Int), none)
    else ((2 ^ 63 - 1 : Int), some .outOfRange)

/-- Model of Go `strconv.ParseInt(s, 10, 64)` on the character list of `s`. -/
def parseIntChars : List Char → Int × Option NumErr
  | [] => (0, some .badSyn)
  | '+' :: rest => parseUnsignedClamp rest false
  | '-' :: rest => parseUnsignedClamp rest true
  | cs => parseUnsignedClamp cs false

/-- Model of Go `strconv.ParseInt(s, 10, 64)`; also the model of the
repository utility `utils.ParseInt`, which delegates to it. -/
def parseIntGo (s : String) : Int × Option NumErr := parseIntChars s.data

/-! ## Model of Go `net.ParseIP` / `net.ParseCIDR` (standard library,
external to the repository) -/

/-- Leading zeros are rejected in dotted-decimal fields (Go ≥ 1.17). -/
def noLeadZero : List Char → Bool
  | '0' :: _ :: _ => false
  | _ => true

/-- One dotted-decimal IPv4 field: 1–3 digits, no leading zero, value ≤ 255. -/
def v4FieldOk (cs : List Char) : Bool :=
  !cs.isEmpty && cs.all isDigitCh && decide (cs.length ≤ 3) &&
    noLeadZero cs && decide (natOfDigits cs ≤ 255)

/-- Dotted-decimal IPv4 address: exactly four valid fields. -/
def isIPv4 (cs : List Char) : Bool :=
  match splitOnCharL '.' cs with
  | [a, b, c, d] => v4FieldOk a && v4FieldOk b && v4FieldOk c && v4FieldOk d
  | _ => false

/-- One IPv6 hexadecimal group: 1–4 hex digits. -/
def hexGroupOk (cs : List Char) : Bool :=
  !cs.isEmpty && decide (cs.length ≤ 4) && cs.all isHexDigitCh

/-- Split at the first `::`, when present. -/
def splitElps : List Char → Option (List Char × List Char)
  | ':' :: ':' :: rest => some ([], rest)
  | c :: rest => (splitElps rest).map (fun p => (c :: p.1, p.2))
  | [] => none

/-- Colon-separated groups of a chunk that contains no `::`; `none` when an
empty group is present (which Go rejects), no groups for an empty chunk. -/
def colonGroups (cs : List Char) : Option (List (List Char)) :=
  if cs.isEmpty then some []
  else
    let parts := splitOnCharL ':' cs
    if parts.all (fun p => !p.isEmpty) then some parts else none

/-- Number of 16-bit groups represented, allowing an embedded dotted-decimal
IPv4 address (worth two groups) in the final position only. -/
def v6Count : List (List Char) → Option Nat
  | [] => some 0
  | [g] => if hexGroupOk g then some 1 else if isIPv4 g then some 2 else none
  | g :: gs => if hexGroupOk g then (v6Count gs).map (· + 1) else none

/-- Group count for the part before a `::`, where an embedded IPv4 address is
not allowed (Go stops at an IPv4 suffix, so text after it is rejected). -/
def v6CountHexOnly (gs : List (List Char)) : Option Nat :=
  if gs.all hexGroupOk then some gs.length else none

/-- Model of Go `net.ParseIP` succeeding on an IPv6 literal. -/
def isIPv6 (cs : List Char) : Bool :=
  match splitElps cs with
  | none =>
    match colonGroups cs with
    | some gs => v6Count gs == some 8
    | none => false
  | some (l, r) =>
    match colonGroups l, colonGroups r with
    | some gl, some gr =>
      match v6CountHexOnly gl, v6Count gr with
      | some a, some b => decide (a + b ≤ 7)
      | _, _ => false
    | _, _ => false

/-- Model of `net.ParseIP(s) != nil`: the first of `.`/`:` to occur decides
between the IPv4 and IPv6 grammar, as in Go. -/
def goParseIPok (cs : List Char) : Bool :=
  match cs.find? (fun c => c = '.' || c = ':') with
  | some c => if c = '.' then isIPv4 cs else isIPv6 cs
  | none => false

/-- Split at the first `/`, when present. -/
def splitSlash : List Char → Option (List Char × List Char)
  | '/' :: rest => some ([], rest)
  | c :: rest => (splitSlash rest).map (fun p => (c :: p.1, p.2))
  | [] => none

/-- Model of `net.ParseCIDR(s)` succeeding: an IP address, a `/`, and a
decimal prefix length within range for the address family. -/
def goParseCIDRok (cs : List Char) : Bool :=
  match splitSlash cs with
  | none => false
  | some (addr, mask) =>
    !mask.isEmpty && mask.all isDigitCh &&
      (if isIPv4 addr then decide (natOfDigits mask ≤ 32)
       else if isIPv6 addr then decide (natOfDigits mask ≤ 128)
       else false)

/-- The whitelist address validation performed by `Process`: the address is a
single IP (`net.ParseIP` succeeds) or a CIDR block (`net.ParseCIDR`
succeeds). -/
def validAddress (address : String) : Bool :=
  goParseIPok address.data || goParseCIDRok address.data

/-! ## Models of the repository utilities external to the excerpt -/

/-- Modelled from the spec: `utils.ParseTime` (a Size/Time utility external to
the excerpt) parses a human duration string with an optional `ms`/`s`/`m`/`h`/`d`
suffix into a millisecond count (the spec's end-to-end property and the
in-repository tests give `"10s" ↦ 10000`).  Following the Go convention the
spec relies on ("all errors return to the immediate caller", no undefined
behaviour), it always returns a value alongside any parse error, and the
multiplication wraps like Go `int64` arithmetic. -/
def parseTime (s : String) : Int × Option NumErr :=
  let cs := s.data
  let core (k : Nat) (mult : Int) : Int × Option NumErr :=
    let p := parseIntChars (cs.take (cs.length - k))
    (wrap64 (p.1 * mult), p.2)
  if hasSuf ['m', 's'] cs then core 2 1
  else if hasSuf ['s'] cs then core 1 1000
  else if hasSuf ['m'] cs then core 1 60000
  else if hasSuf ['h'] cs then core 1 3600000
  else if hasSuf ['d'] cs then core 1 86400000
  else core 0 1

/-- Modelled from the spec: `utils.ParseSize` (external to the excerpt) parses
a human byte-size string with an optional `k`/`m`/`g` suffix into a byte
count, again always returning a value alongside any error. -/
def parseSize (s : String) : Int × Option NumErr :=
  let cs := s.data
  let core (k : Nat) (mult : Int) : Int × Option NumErr :=
    let p := parseIntChars (cs.take (cs.length - k))
    (wrap64 (p.1 * mult), p.2)
  if hasSuf ['k'] cs then core 1 1024
  else if hasSuf ['m'] cs then core 1 (1024 * 1024)
  else if hasSuf ['g'] cs then core 1 (1024 * 1024 * 1024)
  else core 0 1

/-- Modelled from the spec: `utils.Hash` (external to the excerpt) is a stable
content hash of its input, rendered as a hex string; modelled as 64-bit
FNV-1a over the text's code points.  The claims depend only on it being a
deterministic function of the raw input text. -/
def fnvFold (h : Nat) : List Char → Nat
  | [] => h
  | c :: cs => fnvFold (((h ^^^ c.toNat) * 1099511628211) % (2 ^ 64)) cs

def hexDigitCh (n : Nat) : Char :=
  Char.ofNat (if n < 10 then 48 + n else 87 + n)

def hexChars : Nat → Nat → List Char
  | 0, _ => []
  | k + 1, n => hexChars k (n / 16) ++ [hexDigitCh (n % 16)]

/-- `utils.Hash` as used by `Process`: hex rendering of the content hash. -/
def hashHex (s : String) : String :=
  String.mk (hexChars 16 (fnvFold 14695981039346656037 s.data))

/-! ## The Map Store capability

Modelled from the spec: the map-file storage engine is external and is
"exposed only through a small append/exists/path-lookup capability".  The
store itself is an association list from set names to their entries in append
order; `mapAppend` creates the set on first append.  In addition the
processor state records a trace of every capability call it makes, so that
"no Map Store interaction" claims are statable. -/

abbrev MapStore : Type := List (String × List String)

def mapExists : MapStore → String → Bool
  | [], _ => false
  | (n, _) :: rest, name => n = name || mapExists rest name

def mapAppend : MapStore → String → String → MapStore
  | [], name, value => [(name, [value])]
  | (n, vs) :: rest, name, value =>
    if n = name then (n, vs ++ [value]) :: rest
    else (n, vs) :: mapAppend rest name value

/-- Append a list of entries in order to one named set. -/
def appendList (m : MapStore) (name : String) : List String → MapStore
  | [] => m
  | v :: vs => appendList (mapAppend m name v) name vs

/-- Modelled from the spec: `maps.GetPath` returns the Map Store's path for a
named set ("get path for a named set"). -/
def getPath (name : String) : String :=
  "/etc/haproxy/maps/" ++ name ++ ".map"

/-- One recorded Map Store capability call. -/
inductive StoreOp
  | existsQ (name : String)
  | appendE (name value : String)
  | pathQ (name : String)
deriving DecidableEq, Repr

/-! ## Data model (from `rules.ReqRateLimit`, `rules.ReqTrack` and the
processor struct `ReqRateLimit` of reqRateLimit.go) -/

/-- `rules.ReqRateLimit` — the limiting policy fragment.  Field defaults are
the Go zero values. -/
structure ReqRateLimitRule where
  ReqsLimit : Int := 0
  TableName : String := ""
  DenyStatusCode : Int := 0
  WhitelistMap : String := ""
deriving DecidableEq, Repr

/-- `rules.ReqTrack` — the tracking policy fragment. -/
structure ReqTrackRule where
  TrackKey : String := ""
  TableName : String := ""
  TablePeriod : Option Int := none
  TableSize : Option Int := none
deriving DecidableEq, Repr

/-- An entry of the Rule List.  In the Go code `rules.Add` stores pointers to
the two shared, still-mutable fragments, so the list records *which* fragment
was registered; the fragment contents live in the processor state. -/
inductive RuleRef
  | limitRule
  | trackRule
deriving DecidableEq, Repr

/-- The processor state: the `ReqRateLimit` struct of reqRateLimit.go
(fields `limit`, `track`, `rules`, `maps`) plus the Map Store call trace. -/
structure ProcState where
  limit : Option ReqRateLimitRule
  track : Option ReqTrackRule
  rules : List RuleRef
  maps : MapStore
  trace : List StoreOp
deriving DecidableEq, Repr

/-- `NewReqRateLimit` with a fresh rule list and an empty map store. -/
def newReqRateLimit : ProcState :=
  { limit := none, track := none, rules := [], maps := [], trace := [] }

/-- The error values `Process` can return. -/
inductive ProcErr
  | parseError (e : NumErr)
  | invalidAddress (address : String) (annName : String)
  | unknownDirective (annName : String)
deriving DecidableEq, Repr

/-! ## The annotation processor `Process` (reqRateLimit.go, lines 43–110) -/

/-- The `"rate-limit-requests"` case: parse the value as a base-10 `int64`,
then — regardless of any parse error — create both policy fragments and
register them (limit first, then track) into the Rule List, finally returning
any error. -/
def processRequests (input : String) (s : ProcState) : ProcState × Option ProcErr :=
  let p := parseIntGo input
  ({ s with
      limit := some { ReqsLimit := p.1 },
      track := some { TrackKey := "src" },
      rules := s.rules ++ [RuleRef.limitRule, RuleRef.trackRule] },
   p.2.map ProcErr.parseError)

/-- The `"rate-limit-period"` case: a silent no-op unless both fragments
exist; otherwise parse the duration, derive the table name from the returned
millisecond count (even on a parse error, as the Go code does), assign it to
both fragments, and return any error. -/
def processPeriod (input : String) (s : ProcState) : ProcState × Option ProcErr :=
  match s.limit, s.track with
  | some limit, some track =>
    let p := parseTime input
    let tableName := "RateLimit-" ++ intDec p.1
    ({ s with
        track := some { track with TablePeriod := some p.1, TableName := tableName },
        limit := some { limit with TableName := tableName } },
     p.2.map ProcErr.parseError)
  | _, _ => (s, none)

/-- The `"rate-limit-size"` case. -/
def processSize (input : String) (s : ProcState) : ProcState × Option ProcErr :=
  match s.limit, s.track with
  | some _, some track =>
    let p := parseSize input
    ({ s with track := some { track with TableSize := some p.1 } },
     p.2.map ProcErr.parseError)
  | _, _ => (s, none)

/-- The `"rate-limit-status-code"` case. -/
def processStatusCode (input : String) (s : ProcState) : ProcState × Option ProcErr :=
  match s.limit, s.track with
  | some limit, some _ =>
    let p := parseIntGo input
    ({ s with limit := some { limit with DenyStatusCode := p.1 } },
     p.2.map ProcErr.parseError)
  | _, _ => (s, none)

/-- The whitelist validation/population loop of the `"rate-limit-whitelist"`
case: trim each chunk, validate it as IP-or-CIDR, append valid addresses to
the named set, and stop at the first invalid address.  Returns the store
after the appends performed so far, the trace of appends, and the first
invalid address when there is one. -/
def appendAddrs (m : MapStore) (mapName : String) :
    List String → MapStore × List StoreOp × Option String
  | [] => (m, [], none)
  | a :: rest =>
    let address := trimS a
    if validAddress address then
      let r := appendAddrs (mapAppend m mapName address) mapName rest
      (r.1, StoreOp.appendE mapName address :: r.2.1, r.2.2)
    else (m, [], some address)

/-- The `"rate-limit-whitelist"` case: a silent no-op when no limit fragment
exists; a `patterns/` value is stored verbatim with no Map Store interaction;
otherwise the set name is derived from the hash of the raw value, the set is
populated only when it does not already exist, and on success the limit
fragment's whitelist reference becomes the store's path for the name. -/
def processWhitelist (input : String) (s : ProcState) : ProcState × Option ProcErr :=
  match s.limit with
  | none => (s, none)
  | some limit =>
    if hasPre "patterns/".data input.data then
      ({ s with limit := some { limit with WhitelistMap := input } }, none)
    else
      let mapName := "ratelimit-whitelist-" ++ hashHex input
      if mapExists s.maps mapName then
        ({ s with
            limit := some { limit with WhitelistMap := getPath mapName },
            trace := s.trace ++ [StoreOp.existsQ mapName, StoreOp.pathQ mapName] }, none)
      else
        let r := appendAddrs s.maps mapName (splitComma input)
        match r.2.2 with
        | none =>
          ({ s with
              maps := r.1,
              limit := some { limit with WhitelistMap := getPath mapName },
              trace := s.trace ++ [StoreOp.existsQ mapName] ++ r.2.1 ++ [StoreOp.pathQ mapName] },
           none)
        | some bad =>
          ({ s with
              maps := r.1,
              trace := s.trace ++ [StoreOp.existsQ mapName] ++ r.2.1 },
           some (ProcErr.invalidAddress bad "rate-limit-whitelist"))

/-- `ReqRateLimitAnn.Process` (reqRateLimit.go, lines 43–110): `input` is the
value `common.GetValue` found for the annotation `name`; an empty value is a
no-op, a recognised directive is dispatched, and any other name is an
unknown-directive error. -/
def Process (name input : String) (s : ProcState) : ProcState × Option ProcErr :=
  if input = "" then (s, none)
  else if name = "rate-limit-requests" then processRequests input s
  else if name = "rate-limit-period" then processPeriod input s
  else if name = "rate-limit-size" then processSize input s
  else if name = "rate-limit-status-code" then processStatusCode input s
  else if name = "rate-limit-whitelist" then processWhitelist input s
  else (s, some (ProcErr.unknownDirective name))

/-! ## The condition renderer -/

/-- Modelled from the spec: the Rate-Limit Condition Renderer (the
`rules.ReqRateLimit` `Create` method, whose non-test source is outside the
excerpt) turns a finished limiting fragment into the gating expression —
base `\x7b sc0_http_req_rate(<tableName>) gt <requestLimit> \x7d`, and when
the whitelist reference is set, the base wrapped in parentheses with the
negated source-match clause appended.  The expected strings of
`TestReqRateLimit_ConditionGeneration` pin the exact format. -/
def condTest (r : ReqRateLimitRule) : String :=
  let base := "\x7b sc0_http_req_rate(" ++ r.TableName ++ ") gt " ++ intDec r.ReqsLimit ++ " \x7d"
  if r.WhitelistMap = "" then base
  else "(" ++ base ++ ") !\x7b src -f " ++ r.WhitelistMap ++ " \x7d"

/-! ## Helper lemmas -/

theorem Process_requests_eq (input : String) (h : input ≠ "") (s : ProcState) :
    Process "rate-limit-requests" input s = processRequests input s := by
  unfold Process
  rw [if_neg h]
  rfl

theorem Process_period_eq (input : String) (h : input ≠ "") (s : ProcState) :
    Process "rate-limit-period" input s = processPeriod input s := by
  unfold Process
  rw [if_neg h]
  rfl

theorem Process_size_eq (input : String) (h : input ≠ "") (s : ProcState) :
    Process "rate-limit-size" input s = processSize input s := by
  unfold Process
  rw [if_neg h]
  rfl

theorem Process_statusCode_eq (input : String) (h : input ≠ "") (s : ProcState) :
    Process "rate-limit-status-code" input s = processStatusCode input s := by
  unfold Process
  rw [if_neg h]
  rfl

theorem Process_whitelist_eq (input : String) (h : input ≠ "") (s : ProcState) :
    Process "rate-limit-whitelist" input s = processWhitelist input s := by
  unfold Process
  rw [if_neg h]
  rfl

theorem parseUnsignedClamp_badSyn (ds : List Char) (neg : Bool) (v : Int)
    (h : parseUnsignedClamp ds neg = (v, some NumErr.badSyn)) : v = 0 := by
  unfold parseUnsignedClamp at h
  split at h
  · exact (Prod.ext_iff.mp h).1.symm
  · split at h <;> split at h <;> simp [Prod.ext_iff] at h

theorem parseIntGo_badSyn_eq_zero (s : String) (v : Int)
    (h : parseIntGo s = (v, some NumErr.badSyn)) : v = 0 := by
  unfold parseIntGo parseIntChars at h
  split at h
  · exact (Prod.ext_iff.mp h).1.symm
  · exact parseUnsignedClamp_badSyn _ _ _ h
  · exact parseUnsignedClamp_badSyn _ _ _ h
  · exact parseUnsignedClamp_badSyn _ _ _ h

theorem mapExists_mapAppend (m : MapStore) (name v n : String) :
    mapExists (mapAppend m name v) n = (mapExists m n || decide (name = n)) := by
  induction m with
  | nil => simp [mapAppend, mapExists]
  | cons p rest ih =>
    obtain ⟨nm, vs⟩ := p
    by_cases h : nm = name
    · subst h
      by_cases hn : nm = n <;> simp [mapAppend, mapExists, hn]
    · simp [mapAppend, mapExists, h, ih, Bool.or_assoc]

theorem mapExists_appendList (vs : List String) (name : String) :
    ∀ m : MapStore, mapExists m name = true → mapExists (appendList m name vs) name = true := by
  induction vs with
  | nil => exact fun _ h => h
  | cons v vs ih =>
    intro m h
    exact ih (mapAppend m name v)
      (by rw [mapExists_mapAppend m name v name, h]; rfl)

theorem mapExists_appendList_cons (v : String) (vs : List String) (m : MapStore)
    (name : String) :
    mapExists (appendList m name (v :: vs)) name = true := by
  apply mapExists_appendList vs name (mapAppend m name v)
  rw [mapExists_mapAppend]
  simp

theorem appendAddrs_spec (addrs : List String) (m : MapStore) (mapName : String) :
    appendAddrs m mapName addrs =
      (appendList m mapName ((addrs.map trimS).takeWhile validAddress),
       ((addrs.map trimS).takeWhile validAddress).map (StoreOp.appendE mapName),
       ((addrs.map trimS).dropWhile validAddress).head?) := by
  induction addrs generalizing m with
  | nil => rfl
  | cons a rest ih =>
    by_cases hv : validAddress (trimS a)
    · simp [appendAddrs, hv, ih, List.takeWhile_cons, List.dropWhile_cons, appendList]
    · simp [appendAddrs, hv, List.takeWhile_cons, List.dropWhile_cons, appendList]

theorem takeWhile_eq_self_of_dropWhile_nil {α : Type} {p : α → Bool} (l : List α)
    (h : l.dropWhile p = []) : l.takeWhile p = l := by
  induction l with
  | nil => rfl
  | cons a rest ih =>
    by_cases hp : p a
    · rw [List.dropWhile_cons, if_pos hp] at h
      rw [List.takeWhile_cons, if_pos hp, ih h]
    · rw [List.dropWhile_cons, if_neg hp] at h
      simp at h

theorem splitOnCharL_ne_nil (sep : Char) (cs : List Char) : splitOnCharL sep cs ≠ [] := by
  induction cs with
  | nil => simp [splitOnCharL]
  | cons c rest ih =>
    simp only [splitOnCharL]
    split
    · simp
    · split
      · simp
      · simp

theorem splitComma_map_ne_nil (input : String) : (splitComma input).map trimS ≠ [] := by
  unfold splitComma
  intro h
  rw [List.map_map, List.map_eq_nil_iff] at h
  exact splitOnCharL_ne_nil ',' input.data h

/-! ## Claims -/

/-- C3: processing the requests directive with a base-10 integer string
parsing to `n` creates the limit fragment with `ReqsLimit = n` and the track
fragment with `TrackKey = "src"`, and registers the limit fragment and then
the track fragment into the Rule List, in that order; with a non-numeric
value string it fails with a parse error. -/
theorem requests_directive_spec (s : ProcState) (input : String) (hin : input ≠ "") :
    (∀ n : Int, parseIntGo input = (n, none) →
      Process "rate-limit-requests" input s =
        ({ s with
            limit := some { ReqsLimit := n },
            track := some { TrackKey := "src" },
            rules := s.rules ++ [RuleRef.limitRule, RuleRef.trackRule] }, none)) ∧
    (∀ v : Int, parseIntGo input = (v, some NumErr.badSyn) →
      (Process "rate-limit-requests" input s).2 =
        some (ProcErr.parseError NumErr.badSyn)) := by
  constructor
  · intro n hn
    rw [Process_requests_eq input hin s]
    simp [processRequests, hn]
  · intro v hv
    rw [Process_requests_eq input hin s]
    simp [processRequests, hv]

theorem requests_directive_spec_witness :
    Process "rate-limit-requests" "100" newReqRateLimit =
      ({ newReqRateLimit with
          limit := some { ReqsLimit := 100 },
          track := some { TrackKey := "src" },
          rules := [RuleRef.limitRule, RuleRef.trackRule] }, none) :=
  (requests_directive_spec newReqRateLimit "100" (by decide)).1 100 (by decide)

/-- C6: processing the period, size, or status-code directive while the limit
fragment or the track fragment is absent is a silent no-op: no error and no
mutation of any field of the processor state, the Rule List, or the Map
Store. -/
theorem missing_prereq_noop (s : ProcState) (name input : String) (hin : input ≠ "")
    (hname : name = "rate-limit-period" ∨ name = "rate-limit-size" ∨
      name = "rate-limit-status-code")
    (habs : s.limit = none ∨ s.track = none) :
    Process name input s = (s, none) := by
  have hper : processPeriod input s = (s, none) := by
    rcases habs with h | h
    · simp [processPeriod, h]
    · cases hl : s.limit <;> simp [processPeriod, h, hl]
  have hsiz : processSize input s = (s, none) := by
    rcases habs with h | h
    · simp [processSize, h]
    · cases hl : s.limit <;> simp [processSize, h, hl]
  have hsta : processStatusCode input s = (s, none) := by
    rcases habs with h | h
    · simp [processStatusCode, h]
    · cases hl : s.limit <;> simp [processStatusCode, h, hl]
  rcases hname with h | h | h <;> subst h
  · rw [Process_period_eq input hin s, hper]
  · rw [Process_size_eq input hin s, hsiz]
  · rw [Process_statusCode_eq input hin s, hsta]

theorem missing_prereq_noop_witness :
    Process "rate-limit-period" "10s" newReqRateLimit = (newReqRateLimit, none) :=
  missing_prereq_noop newReqRateLimit "rate-limit-period" "10s" (by decide)
    (Or.inl rfl) (Or.inl rfl)

/-- C7: a malformed duration string supplied to the period directive after a
successful requests directive makes processing fail with a parse error that
is returned to the immediate caller; the duration parser's error branch is
total (it returns a value alongside the error, so the unconditional
dereference in the Go code is defined). -/
theorem period_parse_error_returned (s : ProcState) (l : ReqRateLimitRule)
    (t : ReqTrackRule) (input : String) (v : Int) (e : NumErr) (hin : input ≠ "")
    (hl : s.limit = some l) (ht : s.track = some t)
    (hp : parseTime input = (v, some e)) :
    (Process "rate-limit-period" input s).2 = some (ProcErr.parseError e) := by
  rw [Process_period_eq input hin s]
  simp [processPeriod, hl, ht, hp]

theorem period_parse_error_returned_witness :
    (Process "rate-limit-period" "abc"
        (Process "rate-limit-requests" "100" newReqRateLimit).1).2 =
      some (ProcErr.parseError NumErr.badSyn) :=
  period_parse_error_returned _ { ReqsLimit := 100 } { TrackKey := "src" } "abc" 0
    NumErr.badSyn (by decide) rfl rfl (by decide)

/-- C9: a directive name outside the five-name vocabulary fails with an
unknown-directive error (and leaves the state untouched). -/
theorem unknown_directive_error (s : ProcState) (name input : String) (hin : input ≠ "")
    (hname : name ∉ ["rate-limit-requests", "rate-limit-period", "rate-limit-size",
      "rate-limit-status-code", "rate-limit-whitelist"]) :
    Process name input s = (s, some (ProcErr.unknownDirective name)) := by
  simp only [List.mem_cons, List.not_mem_nil, or_false, not_or] at hname
  obtain ⟨h1, h2, h3, h4, h5⟩ := hname
  unfold Process
  rw [if_neg hin, if_neg h1, if_neg h2, if_neg h3, if_neg h4, if_neg h5]

theorem unknown_directive_error_witness :
    Process "rate-limit-burst" "5" newReqRateLimit =
      (newReqRateLimit, some (ProcErr.unknownDirective "rate-limit-burst")) :=
  unknown_directive_error newReqRateLimit "rate-limit-burst" "5" (by decide) (by decide)

/-- C8: a whitelist value beginning with `patterns/`, processed while the
limit fragment exists, is stored verbatim as the whitelist reference; the
rest of the state — including the Map Store and the trace of Map Store
capability calls — is untouched, and no error is returned. -/
theorem whitelist_patterns_verbatim (s : ProcState) (l : ReqRateLimitRule)
    (input : String) (hin : input ≠ "") (hl : s.limit = some l)
    (hpat : hasPre "patterns/".data input.data = true) :
    Process "rate-limit-whitelist" input s =
      ({ s with limit := some { l with WhitelistMap := input } }, none) := by
  rw [Process_whitelist_eq input hin s]
  simp [processWhitelist, hl, hpat]

theorem whitelist_patterns_verbatim_witness :
    Process "rate-limit-whitelist" "patterns/whitelist"
        (Process "rate-limit-requests" "100" newReqRateLimit).1 =
      ({ (Process "rate-limit-requests" "100" newReqRateLimit).1 with
          limit := some { ReqsLimit := 100, WhitelistMap := "patterns/whitelist" } },
       none) :=
  whitelist_patterns_verbatim _ { ReqsLimit := 100 } "patterns/whitelist"
    (by decide) rfl (by decide)

/-- C10 counterexample: for the out-of-range value string
`"9223372036854775808"` (2^63), requests parsing fails, yet the limit
fragment is created with `ReqsLimit` equal to the clamped int64 maximum —
not 0 as the claim states. -/
theorem requests_error_requestLimit_cex :
    (Process "rate-limit-requests" "9223372036854775808" newReqRateLimit).2 ≠ none ∧
    (Process "rate-limit-requests" "9223372036854775808" newReqRateLimit).1.limit =
      some { ReqsLimit := 9223372036854775807 } ∧
    (9223372036854775807 : Int) ≠ 0 := by decide

/-- C10 amended: even when the requests value fails base-10 integer parsing,
`Process` still creates the limit fragment — with `ReqsLimit` equal to the
value the parser returns alongside the error: 0 for a syntax error, the
clamped int64 extreme for a range error — and the track fragment, registers
both into the Rule List in order, and then returns the parse error. -/
theorem requests_error_not_atomic (s : ProcState) (input : String) (v : Int)
    (e : NumErr) (hin : input ≠ "") (hp : parseIntGo input = (v, some e)) :
    Process "rate-limit-requests" input s =
      ({ s with
          limit := some { ReqsLimit := v },
          track := some { TrackKey := "src" },
          rules := s.rules ++ [RuleRef.limitRule, RuleRef.trackRule] },
       some (ProcErr.parseError e)) ∧
    (e = NumErr.badSyn → v = 0) := by
  constructor
  · rw [Process_requests_eq input hin s]
    simp [processRequests, hp]
  · intro he
    exact parseIntGo_badSyn_eq_zero input v (he ▸ hp)

theorem requests_error_not_atomic_witness :
    Process "rate-limit-requests" "abc" newReqRateLimit =
      ({ newReqRateLimit with
          limit := some { ReqsLimit := 0 },
          track := some { TrackKey := "src" },
          rules := [RuleRef.limitRule, RuleRef.trackRule] },
       some (ProcErr.parseError NumErr.badSyn)) ∧
    (NumErr.badSyn = NumErr.badSyn → (0 : Int) = 0) :=
  requests_error_not_atomic newReqRateLimit "abc" 0 NumErr.badSyn (by decide) (by decide)

/-- C1 counterexample: `"10s"` is a valid duration string of exactly 10
seconds, and after a successful requests directive the period directive sets
both table names to `"RateLimit-10000"` — the duration in milliseconds — not
to `"RateLimit-10"` as the claim (seconds) states. -/
theorem period_tableName_seconds_cex :
    parseTime "10s" = (1000 * 10, none) ∧
    ((Process "rate-limit-period" "10s"
        (Process "rate-limit-requests" "100" newReqRateLimit).1).1.limit.map
      ReqRateLimitRule.TableName) = some "RateLimit-10000" ∧
    ("RateLimit-10000" : String) ≠ "RateLimit-10" := by decide

/-- C1 amended: for every valid duration string whose duration is an integer
number of seconds `sec` (i.e. the duration parser returns `1000 * sec`
milliseconds with no error), processing the period directive after a
successful requests directive sets the table name to `"RateLimit-"` followed
by the duration in milliseconds, `1000 * sec`, and assigns this same name to
both the limit and the track fragment. -/
theorem period_tableName_milliseconds (s : ProcState) (l : ReqRateLimitRule)
    (t : ReqTrackRule) (d : String) (sec : Int) (hin : d ≠ "")
    (hl : s.limit = some l) (ht : s.track = some t)
    (hp : parseTime d = (1000 * sec, none)) :
    Process "rate-limit-period" d s =
      ({ s with
          track := some { t with TablePeriod := some (1000 * sec),
                                 TableName := "RateLimit-" ++ intDec (1000 * sec) },
          limit := some { l with TableName := "RateLimit-" ++ intDec (1000 * sec) } },
       none) := by
  rw [Process_period_eq d hin s]
  simp [processPeriod, hl, ht, hp]

theorem period_tableName_milliseconds_witness :
    Process "rate-limit-period" "10s" (Process "rate-limit-requests" "100" newReqRateLimit).1 =
      ({ (Process "rate-limit-requests" "100" newReqRateLimit).1 with
          track := some { TrackKey := "src", TableName := "RateLimit-10000",
                          TablePeriod := some 10000 },
          limit := some { ReqsLimit := 100, TableName := "RateLimit-10000" } },
       none) :=
  period_tableName_milliseconds _ { ReqsLimit := 100 } { TrackKey := "src" } "10s" 10
    (by decide) rfl rfl (by decide)

/-- C2: the condition renderer produces exactly the base expression when the
whitelist reference is unset, exactly the parenthesised base with the negated
source-match clause when it is set, and a limit fragment produced by
`requests = "100"` alone (table name never set) renders with empty
parentheses. -/
theorem condTest_rendering (r : ReqRateLimitRule) :
    (r.WhitelistMap = "" →
      condTest r =
        "\x7b sc0_http_req_rate(" ++ r.TableName ++ ") gt " ++ intDec r.ReqsLimit ++ " \x7d") ∧
    (r.WhitelistMap ≠ "" →
      condTest r =
        "(" ++ ("\x7b sc0_http_req_rate(" ++ r.TableName ++ ") gt " ++
            intDec r.ReqsLimit ++ " \x7d") ++ ") !\x7b src -f " ++ r.WhitelistMap ++ " \x7d") ∧
    ((Process "rate-limit-requests" "100" newReqRateLimit).1.limit.map condTest =
      some "\x7b sc0_http_req_rate() gt 100 \x7d") := by
  refine ⟨fun h => ?_, fun h => ?_, by decide⟩
  · simp only [condTest]
    rw [if_pos h]
  · simp only [condTest]
    rw [if_neg h]

theorem condTest_rendering_witness :
    condTest { ReqsLimit := 100, TableName := "RateLimit-10000", DenyStatusCode := 403 } =
      "\x7b sc0_http_req_rate(RateLimit-10000) gt 100 \x7d" ∧
    condTest { ReqsLimit := 100, TableName := "RateLimit-10000", DenyStatusCode := 429,
               WhitelistMap := "/etc/haproxy/maps/ratelimit-whitelist.map" } =
      "(\x7b sc0_http_req_rate(RateLimit-10000) gt 100 \x7d) !\x7b src -f /etc/haproxy/maps/ratelimit-whitelist.map \x7d" :=
  ⟨(condTest_rendering _).1 rfl, (condTest_rendering _).2.1 (by decide)⟩

theorem processWhitelist_ok_parts (s : ProcState) (l : ReqRateLimitRule) (input : String)
    (hl : s.limit = some l) (hpat : hasPre "patterns/".data input.data = false)
    (hok : (processWhitelist input s).2 = none) :
    (processWhitelist input s).1.limit =
      some { l with WhitelistMap := getPath ("ratelimit-whitelist-" ++ hashHex input) } ∧
    mapExists (processWhitelist input s).1.maps
      ("ratelimit-whitelist-" ++ hashHex input) = true := by
  by_cases hex : mapExists s.maps ("ratelimit-whitelist-" ++ hashHex input)
  · constructor
    · simp [processWhitelist, hl, hpat, hex]
    · simp [processWhitelist, hl, hpat, hex]
  · rw [Bool.not_eq_true] at hex
    have hspec := appendAddrs_spec (splitComma input) s.maps
      ("ratelimit-whitelist-" ++ hashHex input)
    cases hhd : (((splitComma input).map trimS).dropWhile validAddress).head? with
    | some bad =>
      exfalso
      simp [processWhitelist, hl, hpat, hex, hspec, hhd] at hok
    | none =>
      have hnil : ((splitComma input).map trimS).dropWhile validAddress = [] :=
        List.head?_eq_none_iff.mp hhd
      have htake := takeWhile_eq_self_of_dropWhile_nil ((splitComma input).map trimS) hnil
      obtain ⟨v, vs, hcons⟩ := List.exists_cons_of_ne_nil (splitComma_map_ne_nil input)
      constructor
      · simp [processWhitelist, hl, hpat, hex, hspec, hhd]
      · simp [processWhitelist, hl, hpat, hex, hspec, hhd, htake]
        rw [hcons]
        exact mapExists_appendList_cons v vs s.maps ("ratelimit-whitelist-" ++ hashHex input)

/-- C4 counterexample: processing the inline whitelist directive twice with
the identical raw input `"zzz"` (an invalid address): the first of the two
calls does not set the whitelist reference — it stays at the empty string,
which is not the Map Store's path for the derived name — refuting "in both
calls sets LimitPolicy.whitelistRef to the Map Store's path for that name". -/
theorem whitelist_idempotent_cex :
    ((Process "rate-limit-whitelist" "zzz"
        (Process "rate-limit-requests" "100" newReqRateLimit).1).1.limit.map
      ReqRateLimitRule.WhitelistMap) = some "" ∧
    getPath ("ratelimit-whitelist-" ++ hashHex "zzz") ≠ "" := by decide

/-- C4 amended: provided the first call succeeds (returns no error),
processing the inline whitelist directive twice with identical raw input
yields the same set name — `"ratelimit-whitelist-"` plus the hash of the raw
input — in both calls, appends no entry to the Map Store in the second call
(its trace grows only by the existence check and the path lookup, and the
store is unchanged), and both calls set the whitelist reference to the Map
Store's path for that name. -/
theorem whitelist_idempotent_amended (s : ProcState) (l : ReqRateLimitRule)
    (input : String) (hin : input ≠ "") (hl : s.limit = some l)
    (hpat : hasPre "patterns/".data input.data = false)
    (hok : (Process "rate-limit-whitelist" input s).2 = none) :
    (Process "rate-limit-whitelist" input s).1.limit =
      some { l with WhitelistMap := getPath ("ratelimit-whitelist-" ++ hashHex input) } ∧
    Process "rate-limit-whitelist" input (Process "rate-limit-whitelist" input s).1 =
      ({ (Process "rate-limit-whitelist" input s).1 with
          limit := some { l with
            WhitelistMap := getPath ("ratelimit-whitelist-" ++ hashHex input) },
          trace := (Process "rate-limit-whitelist" input s).1.trace ++
            [StoreOp.existsQ ("ratelimit-whitelist-" ++ hashHex input),
             StoreOp.pathQ ("ratelimit-whitelist-" ++ hashHex input)] },
       none) := by
  simp only [Process_whitelist_eq input hin] at hok ⊢
  obtain ⟨hlim1, hex1⟩ := processWhitelist_ok_parts s l input hl hpat hok
  refine ⟨hlim1, ?_⟩
  generalize hs1 : (processWhitelist input s).1 = s1 at hlim1 hex1 ⊢
  simp [processWhitelist, hlim1, hpat, hex1]

theorem whitelist_idempotent_amended_witness :
    (Process "rate-limit-whitelist" "192.168.1.1"
        (Process "rate-limit-whitelist" "192.168.1.1"
          (Process "rate-limit-requests" "100" newReqRateLimit).1).1).2 = none ∧
    (Process "rate-limit-whitelist" "192.168.1.1"
        (Process "rate-limit-whitelist" "192.168.1.1"
          (Process "rate-limit-requests" "100" newReqRateLimit).1).1).1.maps =
      (Process "rate-limit-whitelist" "192.168.1.1"
        (Process "rate-limit-requests" "100" newReqRateLimit).1).1.maps := by
  have h := whitelist_idempotent_amended
    (Process "rate-limit-requests" "100" newReqRateLimit).1 { ReqsLimit := 100 }
    "192.168.1.1" (by decide) rfl (by decide) (by decide)
  rw [h.2]
  exact ⟨rfl, rfl⟩

/-- C5 counterexample: the inline whitelist value `"1.2.3.4,zzz"` contains the
malformed address `"zzz"`, yet processing it (here: a second time, after an
earlier failed pass over the same value left the half-populated set behind)
returns no error and sets the whitelist reference — refuting "for every
inline whitelist value containing a malformed address, processing fails …
and LimitPolicy.whitelistRef is not set by that call". -/
theorem whitelist_invalid_cex :
    validAddress (trimS "zzz") = false ∧
    (Process "rate-limit-whitelist" "1.2.3.4,zzz"
       (Process "rate-limit-whitelist" "1.2.3.4,zzz"
          (Process "rate-limit-requests" "100" newReqRateLimit).1).1).2 = none ∧
    ((Process "rate-limit-whitelist" "1.2.3.4,zzz"
       (Process "rate-limit-whitelist" "1.2.3.4,zzz"
          (Process "rate-limit-requests" "100" newReqRateLimit).1).1).1.limit.map
      ReqRateLimitRule.WhitelistMap) =
      some (getPath ("ratelimit-whitelist-" ++ hashHex "1.2.3.4,zzz")) := by decide

/-- C5 amended: provided no set with the value's derived name exists yet in
the Map Store (e.g. it was not left behind by an earlier failed pass),
processing an inline whitelist value containing a malformed address fails
immediately at the first invalid address (after trimming): the valid
addresses preceding it remain appended to the Map Store (no rollback), the
trace records exactly the existence check and those appends, and the limit
fragment — in particular its whitelist reference — is untouched by the
call. -/
theorem whitelist_invalid_amended (s : ProcState) (l : ReqRateLimitRule)
    (input bad : String) (hin : input ≠ "") (hl : s.limit = some l)
    (hpat : hasPre "patterns/".data input.data = false)
    (hex : mapExists s.maps ("ratelimit-whitelist-" ++ hashHex input) = false)
    (hbad : (((splitComma input).map trimS).dropWhile validAddress).head? = some bad) :
    Process "rate-limit-whitelist" input s =
      ({ s with
          maps := appendList s.maps ("ratelimit-whitelist-" ++ hashHex input)
            (((splitComma input).map trimS).takeWhile validAddress),
          trace := s.trace ++ [StoreOp.existsQ ("ratelimit-whitelist-" ++ hashHex input)] ++
            (((splitComma input).map trimS).takeWhile validAddress).map
              (StoreOp.appendE ("ratelimit-whitelist-" ++ hashHex input)) },
       some (ProcErr.invalidAddress bad "rate-limit-whitelist")) := by
  rw [Process_whitelist_eq input hin s]
  have hspec := appendAddrs_spec (splitComma input) s.maps
    ("ratelimit-whitelist-" ++ hashHex input)
  simp [processWhitelist, hl, hpat, hex, hspec, hbad]

theorem whitelist_invalid_amended_witness :
    (Process "rate-limit-whitelist" "192.168.1.1, invalid, 10.0.0.0/8"
        (Process "rate-limit-requests" "100" newReqRateLimit).1).2 =
      some (ProcErr.invalidAddress "invalid" "rate-limit-whitelist") := by
  rw [whitelist_invalid_amended (Process "rate-limit-requests" "100" newReqRateLimit).1
      { ReqsLimit := 100 } "192.168.1.1, invalid, 10.0.0.0/8" "invalid"
      (by decide) rfl (by decide) (by decide) (by decide)]
